import Mathlib

/-!
Shallow embedding of the stock-delivery-analysis-tool repository
(`src/utils.py` and `src/stock_delivery_analysis_tool.py`).

Modelling conventions:
- A pandas cell that can be NaN is an `Option ℚ` (`none` = NaN/missing);
  pandas comparisons against NaN are false, pandas `mean()` skips NaN and is
  NaN on an all-NaN/empty selection — this is `nanMean` below.
- Pandas float division can also produce infinities, which matters only for
  the `Deliverable Qty / Total Traded Quantity` ratio; `FVal` carries
  NaN / +inf / -inf / finite for exactly those derived columns.
- Dates are integer day numbers (days since the civil epoch), so the
  `pd.Timedelta(days=90)` lookback is plain integer arithmetic.
- Column presence checks (`'Close' in df.columns` etc.) become explicit
  boolean parameters.
- All claims quantify over date-ascending series (the normalizer sorts by
  date before any analysis runs), so the `df.sort_values('Date')` at the top
  of `analyze_delivery_signals` is the identity on every input considered
  here; theorems about it carry the sortedness hypothesis explicitly.
-/

namespace StockTool

/-- pandas `Series.mean()` over possibly-NaN cells: skip the NaN entries,
return NaN (`none`) when no defined entry remains. -/
def nanMean (xs : List (Option ℚ)) : Option ℚ :=
  let vs := xs.filterMap id
  if vs.length = 0 then none else some (vs.sum / (vs.length : ℚ))

/-- a pandas float cell that can be NaN or infinite (the result of a
division whose denominator can be zero). -/
inductive FVal where
  | nan : FVal
  | pinf : FVal
  | ninf : FVal
  | val : ℚ → FVal
  deriving DecidableEq

/-- pandas float division: finite when the denominator is nonzero, NaN for
0/0, a signed infinity for (nonzero)/0. -/
def fdiv (a b : ℚ) : FVal :=
  if b = 0 then
    if a = 0 then FVal.nan else if 0 < a then FVal.pinf else FVal.ninf
  else FVal.val (a / b)

/-- division lifted to possibly-NaN operands: NaN propagates. -/
def fdivOpt (a b : Option ℚ) : FVal :=
  match a, b with
  | some x, some y => fdiv x y
  | _, _ => FVal.nan

/-- multiplication by the positive constant 100 (`* 100` in the source):
NaN and the infinities are preserved. -/
def fmul100 : FVal → FVal
  | FVal.nan => FVal.nan
  | FVal.pinf => FVal.pinf
  | FVal.ninf => FVal.ninf
  | FVal.val q => FVal.val (q * 100)

/-- one row of the historical dataframe: the input columns produced by
`load_historical_data` plus every derived column any analysis writes
(a pandas dataframe is one bag of columns, so one record type carries
them all; a column an analysis has not written yet holds its default). -/
structure Row where
  date : Int := 0
  symbol : String := ""
  /-- the `% Dly Qt to Traded Qty` column -/
  pct : Option ℚ := none
  /-- the `Total Traded Quantity` column -/
  tradedQty : Option ℚ := none
  /-- the `Deliverable Qty` column -/
  deliverableQty : Option ℚ := none
  /-- the `Close` column -/
  close : Option ℚ := none
  volume3MAvg : Option ℚ := none
  volumeRatio : FVal := FVal.nan
  deliveryToTraded : FVal := FVal.nan
  avgVolume : Option ℚ := none
  volumeMultiple : FVal := FVal.nan
  highDelivery : Bool := false
  consecutiveDays : Nat := 0
  deliveryChange : Option ℚ := none
  increasingDelivery : Bool := false
  consecutiveIncreases : Nat := 0
  deriving DecidableEq

instance : Inhabited Row := ⟨{}⟩

/-- pandas `cell > t` for a possibly-NaN cell: false on NaN. -/
def optGt (t : ℚ) (p : Option ℚ) : Bool :=
  match p with
  | some v => decide (t < v)
  | none => false

/-- the `row['% Dly Qt to Traded Qty'] > threshold` test of `utils.py`. -/
def highDel (t : ℚ) (r : Row) : Bool := optGt t r.pct

/-- the rows whose date lies in the inclusive 90-calendar-day window
`[d - 90, d]`: the source's `df['Date'].between(lookback_date, row['Date'])`
with `lookback_date = row['Date'] - pd.Timedelta(days=90)`. -/
def window (rows : List Row) (d : Int) : List Row :=
  rows.filter (fun r => decide (d - 90 ≤ r.date) && decide (r.date ≤ d))

/-- one emitted signal record (`signal_data` in `analyze_delivery_signals`);
the two volume entries are present only when the volume columns exist. -/
structure Signal where
  date : Int
  deliveryPct : ℚ
  prevAvg : Option ℚ
  volumeMultiple : Option FVal := none
  deliveryToTraded : Option FVal := none
  deriving DecidableEq

/-- the body of the row loop of `analyze_delivery_signals`: the signal row
`r` contributes, if any.  A row contributes exactly when its percentage
exceeds the threshold (false on NaN) and it is the only
threshold-exceeding row of the whole frame inside the trailing inclusive
90-day window; the signal's `Previous Avg` is the NaN-skipping mean of the
percentage over every row of that window, and the two volume entries are
attached when the volume columns exist (`hasVolume`). -/
def signalAt (rows : List Row) (t : ℚ) (hasVolume : Bool) (r : Row) :
    Option Signal :=
  match r.pct with
  | some v =>
    if t < v then
      if ((window rows r.date).filter (highDel t)).length = 1 then
        some { date := r.date, deliveryPct := v,
               prevAvg := nanMean ((window rows r.date).map Row.pct),
               volumeMultiple :=
                 if hasVolume then some r.volumeMultiple else none,
               deliveryToTraded :=
                 if hasVolume then some r.deliveryToTraded else none }
      else none
    else none
  | none => none

/-- `utils.analyze_delivery_signals`: scan the date-sorted rows and collect
the contributions of `signalAt` in order.  (The source starts with
`df.sort_values('Date')`, the identity on the date-ascending inputs every
theorem below quantifies over.) -/
def analyze_delivery_signals (rows : List Row) (t : ℚ) (hasVolume : Bool) :
    List Signal :=
  rows.filterMap (signalAt rows t hasVolume)

/-- the pandas `x != x.shift()` test at position `i`: the shifted value at
position 0 is missing and a boolean never compares equal to it, so position
0 always counts as a change. -/
def flipAt (xs : List Bool) (i : Nat) : Bool :=
  if i = 0 then true else decide (xs.getD i false ≠ xs.getD (i - 1) false)

/-- the pandas `(x != x.shift()).cumsum()` group id at position `i`:
the number of changes up to and including `i`. -/
def gid (xs : List Bool) (i : Nat) : Nat :=
  ((List.range (i + 1)).filter (fun j => flipAt xs j)).length

/-- the pandas `groupby(...).cumcount()` at position `i`: how many earlier
positions carry the same group id. -/
def cumcountAt (xs : List Bool) (i : Nat) : Nat :=
  ((List.range i).filter (fun j => gid xs j = gid xs i)).length

/-- the `cumcount() + 1` streak column of `detect_delivery_patterns`. -/
def consecAt (xs : List Bool) (i : Nat) : Nat := cumcountAt xs i + 1

/-- the pandas `Series.diff()` of the delivery-percentage column:
`x[i] - x[i-1]`, NaN at position 0 and whenever either operand is NaN. -/
def diffList (xs : List (Option ℚ)) : List (Option ℚ) :=
  (List.range xs.length).map (fun i =>
    if i = 0 then none
    else
      match xs.getD i none, xs.getD (i - 1) none with
      | some a, some b => some (a - b)
      | _, _ => none)

/-- writing the five derived pattern columns into row `p.2` at position
`p.1` (the per-row effect of the column assignments in
`detect_delivery_patterns`). -/
def patternWrite (highs incs : List Bool) (changes : List (Option ℚ))
    (p : Nat × Row) : Row :=
  { p.2 with
    highDelivery := highs.getD p.1 false,
    consecutiveDays := consecAt highs p.1,
    deliveryChange := changes.getD p.1 none,
    increasingDelivery := incs.getD p.1 false,
    consecutiveIncreases := consecAt incs p.1 }

/-- the `High_Delivery` column: `pct > threshold` per row, false on NaN. -/
def highsOf (rows : List Row) (t : ℚ) : List Bool :=
  (rows.map Row.pct).map (optGt t)

/-- the `Delivery_Change` column: the first difference of the
delivery-percentage column. -/
def changesOf (rows : List Row) : List (Option ℚ) :=
  diffList (rows.map Row.pct)

/-- the `Increasing_Delivery` column: `Delivery_Change > 0`, false on the
NaN differences. -/
def incsOf (rows : List Row) : List Bool :=
  (changesOf rows).map (optGt 0)

/-- `utils.detect_delivery_patterns`: `High_Delivery = pct > threshold`,
`Consecutive_Days` = cumcount within the cumsum-of-flips groups plus 1,
`Delivery_Change = pct.diff()`, `Increasing_Delivery = Delivery_Change > 0`
(false on the NaN first difference), `Consecutive_Increases` by the same
group/cumcount rule. -/
def detect_delivery_patterns (rows : List Row) (t : ℚ) : List Row :=
  rows.enum.map (patternWrite (highsOf rows t) (incsOf rows) (changesOf rows))

/-- pandas `rolling(window=90, min_periods=1).mean()` at position `i`:
the NaN-skipping mean over positions `max (i-89) 0 .. i`. -/
def rolling90At (xs : List (Option ℚ)) (i : Nat) : Option ℚ :=
  nanMean ((xs.take (i + 1)).drop (i + 1 - 90))

/-- writing the five derived volume columns into row `p.2` at position
`p.1` (the per-row effect of the column assignments in
`add_volume_analysis`). -/
def volumeWrite (tqs : List (Option ℚ)) (avg : Option ℚ) (p : Nat × Row) :
    Row :=
  { p.2 with
    volume3MAvg := rolling90At tqs p.1,
    volumeRatio := fdivOpt p.2.tradedQty (rolling90At tqs p.1),
    deliveryToTraded := fmul100 (fdivOpt p.2.deliverableQty p.2.tradedQty),
    avgVolume := avg,
    volumeMultiple := fdivOpt p.2.tradedQty avg }

/-- `utils.add_volume_analysis`: when both quantity columns are present
(`hasQty`), add `Volume_3M_Avg` (90-row rolling mean with `min_periods=1`),
`Volume_Ratio`, `Delivery_to_Traded = Deliverable Qty / Total Traded
Quantity * 100`, the broadcast series mean `Avg_Volume`, and
`Volume_Multiple`; otherwise return the frame unchanged. -/
def add_volume_analysis (hasQty : Bool) (rows : List Row) : List Row :=
  if hasQty then
    let tqs := rows.map Row.tradedQty
    let avg := nanMean tqs
    rows.enum.map (volumeWrite tqs avg)
  else rows

/-- pandas `Close.pct_change(5)` at position `i`:
`close[i] / close[i-5] - 1`, NaN for the first five positions and on NaN
operands (the inputs considered by the claims have defined positive
closes, where this is exact). -/
def pctChange5At (closes : List (Option ℚ)) (i : Nat) : Option ℚ :=
  if i < 5 then none
  else
    match closes.getD i none, closes.getD (i - 5) none with
    | some a, some b => if b = 0 then none else some (a / b - 1)
    | _, _ => none

/-- the result dict of `analyze_price_correlation`. -/
structure CorrResult where
  correlation : Option ℚ
  successRate : Option ℚ
  deriving DecidableEq

/-- the `Price_Change_5D` values restricted to the rows where
`High_Delivery_Days` is true (the `df[df['High_Delivery_Days']]`
selection). -/
def highChanges (rows : List Row) (t : ℚ) : List (Option ℚ) :=
  let closes := rows.map Row.close
  let changes := (List.range rows.length).map (pctChange5At closes)
  (changes.zip (rows.map (highDel t))).filterMap
    (fun p => if p.2 then some p.1 else none)

/-- `utils.analyze_price_correlation`: `None` without a `Close` column;
otherwise `correlation` is the NaN-skipping mean of `Price_Change_5D` over
the high-delivery rows (NaN when that selection is empty or all-NaN) and
`success_rate` is the mean of the boolean series `Price_Change_5D > 0`
over the same selection (NaN on an empty selection; a NaN change compares
as not-greater, so it counts 0 in the numerator and 1 in the
denominator). -/
def analyze_price_correlation (hasClose : Bool) (rows : List Row) (t : ℚ) :
    Option CorrResult :=
  if hasClose then
    let sel := highChanges rows t
    some { correlation := nanMean sel,
           successRate :=
             if sel.length = 0 then none
             else some (((sel.filter (optGt 0)).length : ℚ) /
                        (sel.length : ℚ)) }
  else none

/-- one row of the daily snapshot table after the `pd.to_numeric` coercion
of `DELIV_PER` (the literal `"-"` and `""` placeholders have become
`none`). -/
structure SnapRow where
  series : String
  symbol : String
  delivPer : Option ℚ
  date1 : String
  deriving DecidableEq

/-- a character of the class `[0-9A-Z]`. -/
def isUpperAlnum (c : Char) : Bool :=
  (decide ('0' ≤ c) && decide (c ≤ '9')) || (decide ('A' ≤ c) && decide (c ≤ 'Z'))

/-- the anchored series-exclusion regex of `load_daily_data`,
`^(GB|GS|BE|BO|BL|W[0-9A-Z]|K[0-9A-Z]|MF|ME|TB|SG)$`, as an exact match on
the whole series code. -/
def unwantedSeries (s : String) : Bool :=
  (["GB", "GS", "BE", "BO", "BL", "MF", "ME", "TB", "SG"].contains s) ||
  (match s.toList with
   | [c1, c2] => (decide (c1 = 'W') || decide (c1 = 'K')) && isUpperAlnum c2
   | _ => false)

/-- the `df['DELIV_PER'] > min_delivery` row filter (false on NaN, so the
trailing `dropna` of the source removes nothing further). -/
def snapKeep (m : ℚ) (r : SnapRow) : Bool :=
  match r.delivPer with
  | some v => decide (m < v)
  | none => false

/-- lexicographic order on character lists (the order pandas uses on the
string group keys). -/
def charListLe : List Char → List Char → Bool
  | [], _ => true
  | _ :: _, [] => false
  | a :: as, b :: bs =>
    if a < b then true else if b < a then false else charListLe as bs

/-- lexicographic order on strings. -/
def strLeB (a b : String) : Bool := charListLe a.toList b.toList

/-- `load_daily_data` of `stock_delivery_analysis_tool.py`: drop the rows
whose series code matches the exclusion regex, keep the rows whose coerced
`DELIV_PER` exceeds `min_delivery`, and group by series code (pandas
`groupby` sorts the keys and keeps the original row order inside each
group, which `values.tolist()` then returns unchanged).  The second
component is `df['DATE1'].iloc[0]`, read after the series exclusion but
before the delivery filter. -/
def load_daily_data (rows : List SnapRow) (m : ℚ) :
    List (String × List (String × ℚ)) × Option String :=
  let rows1 := rows.filter (fun r => !unwantedSeries r.series)
  let rows2 := rows1.filter (snapKeep m)
  let keys := List.insertionSort (fun a b => strLeB a b = true)
    ((rows2.map SnapRow.series).dedup)
  (keys.map (fun k =>
      (k, (rows2.filter (fun r => r.series == k)).map
            (fun r => (r.symbol, r.delivPer.getD 0)))),
   (rows1.head?).map SnapRow.date1)

/-- one raw row of an uploaded historical CSV: the three columns
`load_historical_data` parses. -/
structure RawRow where
  symbol : String
  date : String
  pct : String
  deriving DecidableEq

/-- the parse failure of `load_historical_data` (pandas raises on the first
value that does not match the requested format; the offending raw value is
carried). -/
inductive LoadError where
  | parseFailure : String → LoadError
  deriving DecidableEq

/-- a Gregorian leap year. -/
def isLeap (y : Nat) : Bool := (y % 4 = 0 && y % 100 ≠ 0) || y % 400 = 0

/-- the number of days of month `m` of year `y`. -/
def daysInMonth (y m : Nat) : Nat :=
  if m = 2 then (if isLeap y then 29 else 28)
  else if m = 4 || m = 6 || m = 9 || m = 11 then 30 else 31

/-- civil date to day number (days since 1970-01-01, the standard
days-from-civil computation); only its injectivity and order matter to the
analyses, which work on day differences. -/
def daysFromCivil (y m d : Nat) : Int :=
  let yy : Int := if m ≤ 2 then (y : Int) - 1 else (y : Int)
  let era : Int := (if 0 ≤ yy then yy else yy - 399) / 400
  let yoe : Int := yy - era * 400
  let mp : Int := ((m : Int) + 9) % 12
  let doy : Int := (153 * mp + 2) / 5 + (d : Int) - 1
  let doe : Int := yoe * 365 + yoe / 4 - yoe / 100 + doy
  era * 146097 + doe - 719468

/-- the month-abbreviation table of the `%b` directive. -/
def monthTable : List (String × Nat) :=
  [("Jan", 1), ("Feb", 2), ("Mar", 3), ("Apr", 4), ("May", 5), ("Jun", 6),
   ("Jul", 7), ("Aug", 8), ("Sep", 9), ("Oct", 10), ("Nov", 11), ("Dec", 12)]

/-- `pd.to_datetime(..., format='%d-%b-%Y')` on one trimmed value: a one- or
two-digit day valid for the month, a month abbreviation, a four-digit year;
anything else fails. -/
def parseDate (s : String) : Option Int :=
  match s.trim.splitOn "-" with
  | [ds, ms, ys] =>
    match ds.toNat?, List.lookup ms monthTable, ys.toNat? with
    | some d, some m, some y =>
      if 1 ≤ d && d ≤ daysInMonth y m && ys.length = 4
          && 1 ≤ ds.length && ds.length ≤ 2
          && ds.toList.all Char.isDigit && ys.toList.all Char.isDigit then
        some (daysFromCivil y m d)
      else none
    | _, _, _ => none
  | _ => none

/-- the numeric value of a digit string (its callers have already checked
every character is a digit). -/
def digitsToNat (cs : List Char) : Nat :=
  cs.foldl (fun n c => n * 10 + (c.toNat - 48)) 0

/-- `astype(float)` on one cleaned cell, for the plain decimal literals the
exchange files contain: an optional minus sign, an integer part, an
optional fractional part. -/
def parseDecimal (s : String) : Option ℚ :=
  let s1 := s.trim
  let sign : ℚ := if s1.startsWith "-" then -1 else 1
  let s2 := if s1.startsWith "-" then s1.drop 1 else s1
  match s2.splitOn "." with
  | [ip] =>
    if 0 < ip.length && ip.toList.all Char.isDigit then
      some (sign * (digitsToNat ip.toList : ℚ))
    else none
  | [ip, fp] =>
    if (0 < ip.length || 0 < fp.length) && ip.toList.all Char.isDigit
        && fp.toList.all Char.isDigit then
      some (sign * ((digitsToNat ip.toList : ℚ) +
        (digitsToNat fp.toList : ℚ) / ((10 : ℚ) ^ fp.length)))
    else none
  | _ => none

/-- the whole-column `pd.to_datetime` pass: the day number of every date
cell, or the first failure. -/
def parseDates : List RawRow → Except LoadError (List Int)
  | [] => Except.ok []
  | r :: rs =>
    match parseDate r.date with
    | none => Except.error (LoadError.parseFailure r.date)
    | some d =>
      match parseDates rs with
      | Except.ok ds => Except.ok (d :: ds)
      | Except.error e => Except.error e

/-- the whole-column delivery-percentage pass: strip, remove the thousands
separators, parse as a float; the first failure aborts. -/
def parsePcts : List RawRow → Except LoadError (List ℚ)
  | [] => Except.ok []
  | r :: rs =>
    match parseDecimal ((r.pct.trim).replace "," "") with
    | none => Except.error (LoadError.parseFailure r.pct)
    | some q =>
      match parsePcts rs with
      | Except.ok qs => Except.ok (q :: qs)
      | Except.error e => Except.error e

/-- `load_historical_data` of `stock_delivery_analysis_tool.py`: parse the
date column strictly as `%d-%b-%Y`, parse the delivery-percentage column
after removing commas, trim the symbol column, and sort ascending by date.
There is no empty-input check: zero parsed rows yield the empty frame. -/
def load_historical_data (raws : List RawRow) :
    Except LoadError (List Row) :=
  match parseDates raws with
  | Except.error e => Except.error e
  | Except.ok dates =>
    match parsePcts raws with
    | Except.error e => Except.error e
    | Except.ok pcts =>
      let rows := (dates.zip ((raws.map (fun r => r.symbol.trim)).zip pcts)).map
        (fun p => ({ date := p.1, symbol := p.2.1, pct := some p.2.2 } : Row))
      Except.ok (List.insertionSort (fun a b : Row => a.date ≤ b.date) rows)

/-! Helper lemmas about the cumsum/cumcount streak machinery. -/

theorem gid_mono (xs : List Bool) {i j : Nat} (h : i ≤ j) :
    gid xs i ≤ gid xs j := by
  have hsub : (List.range (i + 1)).Sublist (List.range (j + 1)) :=
    List.range_sublist.mpr (by omega)
  exact List.Sublist.length_le (List.Sublist.filter _ hsub)

theorem gid_succ_true (xs : List Bool) (i : Nat)
    (h : flipAt xs (i + 1) = true) : gid xs (i + 1) = gid xs i + 1 := by
  unfold gid
  rw [List.range_succ, List.filter_append]
  simp [h]

theorem gid_succ_false (xs : List Bool) (i : Nat)
    (h : flipAt xs (i + 1) = false) : gid xs (i + 1) = gid xs i := by
  unfold gid
  rw [List.range_succ, List.filter_append]
  simp [h]

theorem consecAt_zero (xs : List Bool) : consecAt xs 0 = 1 := rfl

theorem consecAt_reset (xs : List Bool) (i : Nat)
    (h : flipAt xs (i + 1) = true) : consecAt xs (i + 1) = 1 := by
  unfold consecAt cumcountAt
  have hnil : (List.range (i + 1)).filter
      (fun j => decide (gid xs j = gid xs (i + 1))) = [] := by
    rw [List.filter_eq_nil_iff]
    intro j hj
    have hji : j ≤ i := by exact Nat.lt_succ_iff.mp (List.mem_range.mp hj)
    have h1 : gid xs j ≤ gid xs i := gid_mono xs hji
    have h2 : gid xs (i + 1) = gid xs i + 1 := gid_succ_true xs i h
    simp only [decide_eq_true_eq]
    omega
  rw [hnil]
  rfl

theorem consecAt_step (xs : List Bool) (i : Nat)
    (h : flipAt xs (i + 1) = false) :
    consecAt xs (i + 1) = consecAt xs i + 1 := by
  unfold consecAt cumcountAt
  have h2 : gid xs (i + 1) = gid xs i := gid_succ_false xs i h
  rw [h2, List.range_succ, List.filter_append]
  simp

theorem detect_length (rows : List Row) (t : ℚ) :
    (detect_delivery_patterns rows t).length = rows.length := by
  simp [detect_delivery_patterns, List.enum_length]

theorem detect_getD (rows : List Row) (t : ℚ) (i : Nat)
    (hi : i < rows.length) :
    (detect_delivery_patterns rows t).getD i default =
      patternWrite (highsOf rows t) (incsOf rows) (changesOf rows)
        (i, rows.getD i default) := by
  have h1 : i < (detect_delivery_patterns rows t).length := by
    rw [detect_length]; exact hi
  rw [List.getD_eq_getElem _ _ h1, List.getD_eq_getElem _ _ hi]
  simp [detect_delivery_patterns, List.getElem_map, List.getElem_enum,
    highsOf, incsOf, changesOf]

theorem highsOf_length (rows : List Row) (t : ℚ) :
    (highsOf rows t).length = rows.length := by
  simp [highsOf]

theorem changesOf_length (rows : List Row) :
    (changesOf rows).length = rows.length := by
  simp [changesOf, diffList]

theorem incsOf_length (rows : List Row) :
    (incsOf rows).length = rows.length := by
  simp [incsOf, changesOf_length]

theorem highsOf_getD (rows : List Row) (t : ℚ) (i : Nat)
    (hi : i < rows.length) :
    (highsOf rows t).getD i false = highDel t (rows.getD i default) := by
  have h1 : i < (highsOf rows t).length := by rw [highsOf_length]; exact hi
  have h2 : i < (rows.map Row.pct).length := by simpa using hi
  rw [List.getD_eq_getElem _ _ h1, List.getD_eq_getElem _ _ hi]
  simp [highsOf, List.getElem_map, highDel]

theorem incsOf_getD (rows : List Row) (i : Nat) (hi : i < rows.length) :
    (incsOf rows).getD i false = optGt 0 ((changesOf rows).getD i none) := by
  have h1 : i < (incsOf rows).length := by rw [incsOf_length]; exact hi
  have h2 : i < (changesOf rows).length := by rw [changesOf_length]; exact hi
  rw [List.getD_eq_getElem _ _ h1, List.getD_eq_getElem _ _ h2]
  simp [incsOf, List.getElem_map]

/-- claim C2: in the Pattern Detector's output, `Consecutive_Days` is 1 at
row 0 and wherever `High_Delivery` differs from the previous row, and the
previous value plus one wherever it agrees; the identical law governs
`Consecutive_Increases` over `Increasing_Delivery`; and
`Increasing_Delivery` is exactly `Delivery_Change > 0` with the undefined
change (row 0 or a NaN boundary) counting as not-increasing. -/
theorem C2_streak_laws (rows : List Row) (t : ℚ) (i : Nat)
    (hi : i < rows.length) :
    ((i = 0 ∨ ((detect_delivery_patterns rows t).getD i default).highDelivery ≠
        ((detect_delivery_patterns rows t).getD (i - 1) default).highDelivery) →
      ((detect_delivery_patterns rows t).getD i default).consecutiveDays = 1)
    ∧ ((i ≠ 0 ∧ ((detect_delivery_patterns rows t).getD i default).highDelivery =
        ((detect_delivery_patterns rows t).getD (i - 1) default).highDelivery) →
      ((detect_delivery_patterns rows t).getD i default).consecutiveDays =
        ((detect_delivery_patterns rows t).getD (i - 1) default).consecutiveDays + 1)
    ∧ ((i = 0 ∨ ((detect_delivery_patterns rows t).getD i default).increasingDelivery ≠
        ((detect_delivery_patterns rows t).getD (i - 1) default).increasingDelivery) →
      ((detect_delivery_patterns rows t).getD i default).consecutiveIncreases = 1)
    ∧ ((i ≠ 0 ∧ ((detect_delivery_patterns rows t).getD i default).increasingDelivery =
        ((detect_delivery_patterns rows t).getD (i - 1) default).increasingDelivery) →
      ((detect_delivery_patterns rows t).getD i default).consecutiveIncreases =
        ((detect_delivery_patterns rows t).getD (i - 1) default).consecutiveIncreases + 1)
    ∧ (((detect_delivery_patterns rows t).getD i default).increasingDelivery =
        optGt 0 (((detect_delivery_patterns rows t).getD i default).deliveryChange)) := by
  have hi1 : i - 1 < rows.length := by omega
  rw [detect_getD rows t i hi, detect_getD rows t (i - 1) hi1]
  simp only [patternWrite]
  refine ⟨?_, ?_, ?_, ?_, ?_⟩
  · rintro (rfl | hne)
    · exact consecAt_zero _
    · rcases Nat.eq_zero_or_pos i with rfl | hpos
      · exact consecAt_zero _
      · obtain ⟨k, rfl⟩ := Nat.exists_eq_add_of_lt hpos
        simp only [Nat.zero_add] at *
        apply consecAt_reset
        simp only [flipAt, Nat.add_sub_cancel, if_neg (Nat.succ_ne_zero k)]
        simp only [Nat.add_sub_cancel] at hne
        simpa using hne
  · rintro ⟨hne, heq⟩
    obtain ⟨k, rfl⟩ := Nat.exists_eq_add_of_lt (Nat.pos_of_ne_zero hne)
    simp only [Nat.zero_add] at *
    apply consecAt_step
    simp only [flipAt, Nat.add_sub_cancel, if_neg (Nat.succ_ne_zero k)]
    simp only [Nat.add_sub_cancel] at heq
    simpa using heq
  · rintro (rfl | hne)
    · exact consecAt_zero _
    · rcases Nat.eq_zero_or_pos i with rfl | hpos
      · exact consecAt_zero _
      · obtain ⟨k, rfl⟩ := Nat.exists_eq_add_of_lt hpos
        simp only [Nat.zero_add] at *
        apply consecAt_reset
        simp only [flipAt, Nat.add_sub_cancel, if_neg (Nat.succ_ne_zero k)]
        simp only [Nat.add_sub_cancel] at hne
        simpa using hne
  · rintro ⟨hne, heq⟩
    obtain ⟨k, rfl⟩ := Nat.exists_eq_add_of_lt (Nat.pos_of_ne_zero hne)
    simp only [Nat.zero_add] at *
    apply consecAt_step
    simp only [flipAt, Nat.add_sub_cancel, if_neg (Nat.succ_ne_zero k)]
    simp only [Nat.add_sub_cancel] at heq
    simpa using heq
  · exact incsOf_getD rows i hi

/-- the Scenario-1 series of the spec: delivery percentages
[70, 95, 96, 60, 97] on five consecutive days. -/
def scenarioRows : List Row := [
  { date := 0, pct := some 70 },
  { date := 1, pct := some 95 },
  { date := 2, pct := some 96 },
  { date := 3, pct := some 60 },
  { date := 4, pct := some 97 }]

/-- witness for C2: the streak laws instantiated at the Scenario-1 series,
threshold 90, row 2. -/
theorem C2_streak_laws_witness :
    ((2 = 0 ∨ ((detect_delivery_patterns scenarioRows 90).getD 2 default).highDelivery ≠
        ((detect_delivery_patterns scenarioRows 90).getD (2 - 1) default).highDelivery) →
      ((detect_delivery_patterns scenarioRows 90).getD 2 default).consecutiveDays = 1)
    ∧ ((2 ≠ 0 ∧ ((detect_delivery_patterns scenarioRows 90).getD 2 default).highDelivery =
        ((detect_delivery_patterns scenarioRows 90).getD (2 - 1) default).highDelivery) →
      ((detect_delivery_patterns scenarioRows 90).getD 2 default).consecutiveDays =
        ((detect_delivery_patterns scenarioRows 90).getD (2 - 1) default).consecutiveDays + 1)
    ∧ ((2 = 0 ∨ ((detect_delivery_patterns scenarioRows 90).getD 2 default).increasingDelivery ≠
        ((detect_delivery_patterns scenarioRows 90).getD (2 - 1) default).increasingDelivery) →
      ((detect_delivery_patterns scenarioRows 90).getD 2 default).consecutiveIncreases = 1)
    ∧ ((2 ≠ 0 ∧ ((detect_delivery_patterns scenarioRows 90).getD 2 default).increasingDelivery =
        ((detect_delivery_patterns scenarioRows 90).getD (2 - 1) default).increasingDelivery) →
      ((detect_delivery_patterns scenarioRows 90).getD 2 default).consecutiveIncreases =
        ((detect_delivery_patterns scenarioRows 90).getD (2 - 1) default).consecutiveIncreases + 1)
    ∧ (((detect_delivery_patterns scenarioRows 90).getD 2 default).increasingDelivery =
        optGt 0 (((detect_delivery_patterns scenarioRows 90).getD 2 default).deliveryChange)) :=
  C2_streak_laws scenarioRows 90 2 (by decide)

theorem detect_map_pct (rows : List Row) (t : ℚ) :
    (detect_delivery_patterns rows t).map Row.pct = rows.map Row.pct := by
  unfold detect_delivery_patterns
  rw [List.map_map]
  have h1 : (Row.pct ∘ patternWrite (highsOf rows t) (incsOf rows) (changesOf rows)) =
      (Row.pct ∘ Prod.snd) := rfl
  rw [h1, ← List.map_map, List.enum_map_snd]

theorem highsOf_detect (rows : List Row) (t u : ℚ) :
    highsOf (detect_delivery_patterns rows u) t = highsOf rows t := by
  unfold highsOf
  rw [detect_map_pct]

theorem changesOf_detect (rows : List Row) (u : ℚ) :
    changesOf (detect_delivery_patterns rows u) = changesOf rows := by
  unfold changesOf
  rw [detect_map_pct]

theorem incsOf_detect (rows : List Row) (u : ℚ) :
    incsOf (detect_delivery_patterns rows u) = incsOf rows := by
  unfold incsOf
  rw [changesOf_detect]

/-- claim C9: the Pattern Detector is idempotent — running it on its own
output reproduces that output exactly (in particular the `High_Delivery`,
`Consecutive_Days` and `Consecutive_Increases` columns are unchanged). -/
theorem C9_detect_idempotent (rows : List Row) (t : ℚ) :
    detect_delivery_patterns (detect_delivery_patterns rows t) t =
      detect_delivery_patterns rows t := by
  apply List.ext_getElem
  · simp [detect_length]
  · intro i h1 h2
    have hlen : i < rows.length := by rw [detect_length] at h2; exact h2
    have hlen2 : i < (detect_delivery_patterns rows t).length := h2
    rw [← List.getD_eq_getElem _ default h1, ← List.getD_eq_getElem _ default h2]
    rw [detect_getD (detect_delivery_patterns rows t) t i
      (by rw [detect_length]; exact hlen)]
    rw [highsOf_detect, incsOf_detect, changesOf_detect]
    rw [detect_getD rows t i hlen]
    rfl

theorem optGt_eq_true (t : ℚ) (p : Option ℚ) :
    optGt t p = true ↔ ∃ v, p = some v ∧ t < v := by
  cases p <;> simp [optGt]

theorem signalAt_eq_some (rows : List Row) (t : ℚ) (hv : Bool) (r : Row)
    (s : Signal) :
    signalAt rows t hv r = some s ↔
      ∃ v, r.pct = some v ∧ t < v ∧
        ((window rows r.date).filter (highDel t)).length = 1 ∧
        s = { date := r.date, deliveryPct := v,
              prevAvg := nanMean ((window rows r.date).map Row.pct),
              volumeMultiple := if hv then some r.volumeMultiple else none,
              deliveryToTraded := if hv then some r.deliveryToTraded else none } := by
  cases hp : r.pct with
  | none => simp [signalAt, hp]
  | some v =>
    by_cases h1 : t < v
    · by_cases h2 : ((window rows r.date).filter (highDel t)).length = 1
      · simp [signalAt, hp, h1, h2, eq_comm]
      · simp [signalAt, hp, h1, h2]
    · simp [signalAt, hp, h1]

theorem date_inj (rows : List Row)
    (hs : List.Pairwise (fun a b : Row => a.date < b.date) rows)
    {r : Row} (hr : r ∈ rows) {i : Nat} (hi : i < rows.length)
    (hd : r.date = (rows.getD i default).date) : r = rows.getD i default := by
  rw [List.getD_eq_getElem _ _ hi] at hd ⊢
  obtain ⟨j, hj, rfl⟩ := List.mem_iff_getElem.mp hr
  have hp := List.pairwise_iff_getElem.mp hs
  rcases lt_trichotomy j i with h | h | h
  · have := hp j i hj hi h; omega
  · subst h; rfl
  · have := hp i j hi hj h; omega

/-- claim C1: on a date-ascending series the Signal Detector emits a signal
carrying row `i`'s date exactly when row `i`'s delivery percentage exceeds
the threshold and exactly one threshold-exceeding row lies in the inclusive
window `[date[i] - 90, date[i]]`; and every signal carrying that date has
`Previous Avg` equal to the (NaN-skipping) mean delivery percentage over
all rows of that window. -/
theorem C1_signal_iff (rows : List Row) (t : ℚ) (hasVolume : Bool) (i : Nat)
    (hi : i < rows.length)
    (hs : List.Pairwise (fun a b : Row => a.date < b.date) rows) :
    ((∃ s ∈ analyze_delivery_signals rows t hasVolume,
        s.date = (rows.getD i default).date) ↔
      (highDel t (rows.getD i default) = true ∧
        ((window rows (rows.getD i default).date).filter (highDel t)).length = 1))
    ∧ (∀ s ∈ analyze_delivery_signals rows t hasVolume,
        s.date = (rows.getD i default).date →
          s.prevAvg =
            nanMean ((window rows (rows.getD i default).date).map Row.pct)) := by
  constructor
  · constructor
    · rintro ⟨s, hsmem, hsdate⟩
      obtain ⟨r, hr, hf⟩ := List.mem_filterMap.mp hsmem
      obtain ⟨v, hpv, htv, hcount, rfl⟩ := (signalAt_eq_some rows t hasVolume r s).mp hf
      simp only at hsdate
      have hre : r = rows.getD i default := date_inj rows hs hr hi hsdate
      rw [← hre]
      constructor
      · rw [highDel, optGt_eq_true]
        exact ⟨v, hpv, htv⟩
      · exact hcount
    · rintro ⟨hh, hc⟩
      obtain ⟨v, hpv, htv⟩ := (optGt_eq_true t _).mp hh
      have hmem : rows.getD i default ∈ rows := by
        rw [List.getD_eq_getElem _ _ hi]
        exact List.getElem_mem hi
      refine ⟨_, List.mem_filterMap.mpr ⟨rows.getD i default, hmem,
        (signalAt_eq_some rows t hasVolume _ _).mpr ⟨v, hpv, htv, hc, rfl⟩⟩, rfl⟩
  · intro s hsmem hsdate
    obtain ⟨r, hr, hf⟩ := List.mem_filterMap.mp hsmem
    obtain ⟨v, hpv, htv, hcount, rfl⟩ := (signalAt_eq_some rows t hasVolume r s).mp hf
    simp only at hsdate ⊢
    rw [hsdate]

/-- witness for C1: at the Scenario-1 series with threshold 90 and row 1
(the first crossing), the emitted-signal equivalence and the
`Previous Avg` description hold. -/
theorem C1_signal_iff_witness :
    ((∃ s ∈ analyze_delivery_signals scenarioRows 90 false,
        s.date = (scenarioRows.getD 1 default).date) ↔
      (highDel 90 (scenarioRows.getD 1 default) = true ∧
        ((window scenarioRows (scenarioRows.getD 1 default).date).filter
          (highDel 90)).length = 1))
    ∧ (∀ s ∈ analyze_delivery_signals scenarioRows 90 false,
        s.date = (scenarioRows.getD 1 default).date →
          s.prevAvg =
            nanMean ((window scenarioRows
              (scenarioRows.getD 1 default).date).map Row.pct)) :=
  C1_signal_iff scenarioRows 90 false 1 (by decide) (by decide)

/-- claim C10: a row whose delivery percentage is missing is never a
high-delivery row — its `High_Delivery` flag is false, a high-delivery row
directly after it starts a fresh streak of 1, it is never among the
threshold-exceeding rows counted inside any signal window, and no signal
ever carries its date. -/
theorem C10_nan_row_inert (rows : List Row) (t : ℚ) (hasVolume : Bool)
    (i : Nat) (hi : i < rows.length)
    (hp : (rows.getD i default).pct = none)
    (hs : List.Pairwise (fun a b : Row => a.date < b.date) rows) :
    (((detect_delivery_patterns rows t).getD i default).highDelivery = false)
    ∧ (i + 1 < rows.length →
        ((detect_delivery_patterns rows t).getD (i + 1) default).highDelivery = true →
        ((detect_delivery_patterns rows t).getD (i + 1) default).consecutiveDays = 1)
    ∧ (∀ d : Int, ∀ r ∈ (window rows d).filter (highDel t),
        r.date ≠ (rows.getD i default).date)
    ∧ (∀ s ∈ analyze_delivery_signals rows t hasVolume,
        s.date ≠ (rows.getD i default).date) := by
  have hhd : highDel t (rows.getD i default) = false := by
    show optGt t (rows.getD i default).pct = false
    rw [hp]
    rfl
  refine ⟨?_, ?_, ?_, ?_⟩
  · rw [detect_getD rows t i hi]
    simp only [patternWrite]
    rw [highsOf_getD rows t i hi]
    exact hhd
  · intro hsucc hhigh
    rw [detect_getD rows t (i + 1) hsucc] at hhigh ⊢
    simp only [patternWrite] at hhigh ⊢
    apply consecAt_reset
    rw [flipAt, if_neg (Nat.succ_ne_zero i)]
    have hfalse : (highsOf rows t).getD i false = false := by
      rw [highsOf_getD rows t i hi]; exact hhd
    simp only [Nat.add_sub_cancel, hhigh, hfalse]
    simp
  · intro d r hrf hdate
    have hrw : r ∈ window rows d := (List.mem_filter.mp hrf).1
    have hrh : highDel t r = true := (List.mem_filter.mp hrf).2
    have hrr : r ∈ rows := (List.mem_filter.mp hrw).1
    rw [date_inj rows hs hrr hi hdate, hhd] at hrh
    exact Bool.false_ne_true hrh
  · intro s hsmem hdate
    obtain ⟨r, hr, hf⟩ := List.mem_filterMap.mp hsmem
    obtain ⟨v, hpv, _, _, rfl⟩ := (signalAt_eq_some rows t hasVolume r s).mp hf
    simp only at hdate
    rw [date_inj rows hs hr hi hdate, hp] at hpv
    exact Option.noConfusion hpv

/-- a three-row series whose middle row has a missing delivery
percentage. -/
def nanRows : List Row := [
  { date := 0, pct := some 95 },
  { date := 1, pct := none },
  { date := 2, pct := some 96 }]

/-- witness for C10 at the three-row series with the missing middle
percentage, threshold 90, row 1. -/
theorem C10_nan_row_inert_witness :
    (((detect_delivery_patterns nanRows 90).getD 1 default).highDelivery = false)
    ∧ (1 + 1 < nanRows.length →
        ((detect_delivery_patterns nanRows 90).getD (1 + 1) default).highDelivery = true →
        ((detect_delivery_patterns nanRows 90).getD (1 + 1) default).consecutiveDays = 1)
    ∧ (∀ d : Int, ∀ r ∈ (window nanRows d).filter (highDel 90),
        r.date ≠ (nanRows.getD 1 default).date)
    ∧ (∀ s ∈ analyze_delivery_signals nanRows 90 false,
        s.date ≠ (nanRows.getD 1 default).date) :=
  C10_nan_row_inert nanRows 90 false 1 (by decide) (by decide) (by decide)

theorem vol_length (rows : List Row) :
    (add_volume_analysis true rows).length = rows.length := by
  simp [add_volume_analysis, List.enum_length]

theorem vol_getD (rows : List Row) (i : Nat) (hi : i < rows.length) :
    (add_volume_analysis true rows).getD i default =
      volumeWrite (rows.map Row.tradedQty) (nanMean (rows.map Row.tradedQty))
        (i, rows.getD i default) := by
  have h1 : i < (add_volume_analysis true rows).length := by
    rw [vol_length]; exact hi
  rw [List.getD_eq_getElem _ _ h1, List.getD_eq_getElem _ _ hi]
  simp [add_volume_analysis, List.getElem_map, List.getElem_enum]

/-- claim C7 (amended): with both quantity columns present, a zero traded
quantity never crashes the `Delivery_to_Traded` computation; the value is
NaN when the deliverable quantity is also zero and positive infinity when
it is positive (pandas float-division semantics), and for a nonzero traded
quantity it is the finite ratio times 100. -/
theorem C7_traded_zero (rows : List Row) (i : Nat) (hi : i < rows.length)
    (dq tq : ℚ) (hd : (rows.getD i default).deliverableQty = some dq)
    (ht : (rows.getD i default).tradedQty = some tq) :
    (tq = 0 → dq = 0 →
      ((add_volume_analysis true rows).getD i default).deliveryToTraded = FVal.nan)
    ∧ (tq = 0 → 0 < dq →
      ((add_volume_analysis true rows).getD i default).deliveryToTraded = FVal.pinf)
    ∧ (tq ≠ 0 →
      ((add_volume_analysis true rows).getD i default).deliveryToTraded =
        FVal.val (dq / tq * 100)) := by
  rw [vol_getD rows i hi]
  simp only [volumeWrite]
  rw [hd, ht]
  refine ⟨?_, ?_, ?_⟩
  · rintro rfl rfl
    simp [fdivOpt, fdiv, fmul100]
  · rintro rfl hdq
    simp [fdivOpt, fdiv, fmul100, hdq.ne', hdq]
  · intro htq
    simp [fdivOpt, fdiv, fmul100, htq]

/-- a one-row series with zero traded quantity and positive deliverable
quantity. -/
def zeroTradedRows : List Row := [
  { date := 0, pct := some 50, tradedQty := some 0, deliverableQty := some 5 }]

/-- counterexample to C7 as stated: at a row with traded quantity 0 and
deliverable quantity 5 the Volume Analyzer yields positive infinity for
`Delivery_to_Traded` — a defined, non-NaN value, where the claim demands
an undefined/absent one. -/
theorem C7_counterexample :
    ((add_volume_analysis true zeroTradedRows).getD 0 default).deliveryToTraded =
      FVal.pinf ∧ FVal.pinf ≠ FVal.nan := by
  exact ⟨by decide, by decide⟩

/-- witness for C7 at the one-row zero-traded series. -/
theorem C7_traded_zero_witness :
    ((0 : ℚ) = 0 → (5 : ℚ) = 0 →
      ((add_volume_analysis true zeroTradedRows).getD 0 default).deliveryToTraded = FVal.nan)
    ∧ ((0 : ℚ) = 0 → (0 : ℚ) < 5 →
      ((add_volume_analysis true zeroTradedRows).getD 0 default).deliveryToTraded = FVal.pinf)
    ∧ ((0 : ℚ) ≠ 0 →
      ((add_volume_analysis true zeroTradedRows).getD 0 default).deliveryToTraded =
        FVal.val (5 / 0 * 100)) :=
  C7_traded_zero zeroTradedRows 0 (by decide) 5 0 (by decide) (by decide)

theorem filterMap_id_length (l : List (Option ℚ)) (h : ∀ x ∈ l, x ≠ none) :
    (l.filterMap id).length = l.length := by
  induction l with
  | nil => rfl
  | cons a as ih =>
    cases a with
    | none => exact absurd rfl (h none (List.mem_cons_self none as))
    | some v =>
      rw [List.filterMap_cons]
      simp only [id_eq]
      rw [List.length_cons, List.length_cons,
        ih (fun x hx => h x (List.mem_cons_of_mem _ hx))]

theorem nanMean_of_all_some (l : List (Option ℚ)) (h : ∀ x ∈ l, x ≠ none)
    (hne : l ≠ []) :
    nanMean l = some ((l.filterMap id).sum / (l.length : ℚ)) := by
  unfold nanMean
  have hlen := filterMap_id_length l h
  have hz : ¬ (l.filterMap id).length = 0 := by
    rw [hlen]
    simpa [List.length_eq_zero] using hne
  simp only [id_eq] at hlen hz ⊢
  rw [if_neg hz, hlen]

theorem slice_length (tqs : List (Option ℚ)) (i : Nat) (hi : i < tqs.length) :
    (((tqs.take (i + 1)).drop (i + 1 - 90)).length) = min (i + 1) 90 := by
  rw [List.length_drop, List.length_take]
  omega

theorem slice_all_some (rows : List Row) (i : Nat)
    (hdef : ∀ r ∈ rows, r.tradedQty ≠ none) :
    ∀ x ∈ ((rows.map Row.tradedQty).take (i + 1)).drop (i + 1 - 90),
      x ≠ none := by
  intro x hx
  have h1 : x ∈ (rows.map Row.tradedQty).take (i + 1) :=
    List.Sublist.mem hx (List.drop_sublist _ _)
  have h2 : x ∈ rows.map Row.tradedQty :=
    List.Sublist.mem h1 (List.take_sublist _ _)
  obtain ⟨r, hr, rfl⟩ := List.mem_map.mp h2
  exact hdef r hr

/-- claim C8: with both quantity columns present and defined,
`Volume_3M_Avg[i]` is the mean traded quantity over the last
`min (i+1) 90` rows — a row-count window that shrinks at the start of the
series and never yields an undefined value; `Avg_Volume` is the single
series-wide mean broadcast to every row; and `Volume_Multiple[i]` is
`tradedQty[i]` divided by that series-wide mean. -/
theorem C8_volume_metrics (rows : List Row) (i : Nat) (hi : i < rows.length)
    (hdef : ∀ r ∈ rows, r.tradedQty ≠ none) (q : ℚ)
    (hq : (rows.getD i default).tradedQty = some q)
    (hsum : ((rows.map Row.tradedQty).filterMap id).sum ≠ 0) :
    (((add_volume_analysis true rows).getD i default).volume3MAvg =
      some ((((((rows.map Row.tradedQty).take (i + 1)).drop (i + 1 - 90)).filterMap id).sum)
        / ((min (i + 1) 90 : Nat) : ℚ)))
    ∧ (((add_volume_analysis true rows).getD i default).avgVolume =
      some (((rows.map Row.tradedQty).filterMap id).sum / (rows.length : ℚ)))
    ∧ (((add_volume_analysis true rows).getD i default).volumeMultiple =
      FVal.val (q / (((rows.map Row.tradedQty).filterMap id).sum / (rows.length : ℚ)))) := by
  have htqs : ∀ x ∈ rows.map Row.tradedQty, x ≠ none := by
    intro x hx
    obtain ⟨r, hr, rfl⟩ := List.mem_map.mp hx
    exact hdef r hr
  have htlen : (rows.map Row.tradedQty).length = rows.length := List.length_map _ _
  have htne : rows.map Row.tradedQty ≠ [] := by
    intro hcon
    rw [← List.length_eq_zero, htlen] at hcon
    omega
  have havg : nanMean (rows.map Row.tradedQty) =
      some (((rows.map Row.tradedQty).filterMap id).sum / (rows.length : ℚ)) := by
    rw [nanMean_of_all_some _ htqs htne, htlen]
  rw [vol_getD rows i hi]
  simp only [volumeWrite]
  refine ⟨?_, ?_, ?_⟩
  · unfold rolling90At
    have hsl : (((rows.map Row.tradedQty).take (i + 1)).drop (i + 1 - 90)) ≠ [] := by
      intro hcon
      have := slice_length (rows.map Row.tradedQty) i (by rw [htlen]; exact hi)
      rw [hcon] at this
      simp at this
      omega
    rw [nanMean_of_all_some _ (slice_all_some rows i hdef) hsl,
      slice_length (rows.map Row.tradedQty) i (by rw [htlen]; exact hi)]
  · exact havg
  · rw [havg, hq]
    have hn : ((rows.length : ℚ)) ≠ 0 := by
      have hpos : 0 < rows.length := by omega
      exact_mod_cast Nat.pos_iff_ne_zero.mp hpos
    have hd : (((rows.map Row.tradedQty).filterMap id).sum / (rows.length : ℚ)) ≠ 0 :=
      div_ne_zero hsum hn
    show fdiv q (((rows.map Row.tradedQty).filterMap id).sum / (rows.length : ℚ)) = _
    unfold fdiv
    rw [if_neg hd]

/-- a three-row series with both quantity columns defined. -/
def volRows : List Row := [
  { date := 0, tradedQty := some 10, deliverableQty := some 5 },
  { date := 1, tradedQty := some 20, deliverableQty := some 0 },
  { date := 2, tradedQty := some 0, deliverableQty := some 7 }]

/-- witness for C8 at the three-row quantity series, row 1. -/
theorem C8_volume_metrics_witness :
    (((add_volume_analysis true volRows).getD 1 default).volume3MAvg =
      some ((((((volRows.map Row.tradedQty).take (1 + 1)).drop (1 + 1 - 90)).filterMap id).sum)
        / ((min (1 + 1) 90 : Nat) : ℚ)))
    ∧ (((add_volume_analysis true volRows).getD 1 default).avgVolume =
      some (((volRows.map Row.tradedQty).filterMap id).sum / (volRows.length : ℚ)))
    ∧ (((add_volume_analysis true volRows).getD 1 default).volumeMultiple =
      FVal.val ((20 : ℚ) /
        (((volRows.map Row.tradedQty).filterMap id).sum / (volRows.length : ℚ)))) :=
  C8_volume_metrics volRows 1 (by decide) (by decide) 20 (by decide)
    (by norm_num [volRows, List.filterMap_cons])

theorem snapKeep_eq_true (m : ℚ) (r : SnapRow) :
    snapKeep m r = true ↔ ∃ v, r.delivPer = some v ∧ m < v := by
  cases h : r.delivPer <;> simp [snapKeep, h]

theorem load_daily_mem (rows : List SnapRow) (m : ℚ) (k : String)
    (g : List (String × ℚ)) (hkg : (k, g) ∈ (load_daily_data rows m).1) :
    (k ∈ (((rows.filter (fun r => !unwantedSeries r.series)).filter
        (snapKeep m)).map SnapRow.series).dedup)
    ∧ g = (((rows.filter (fun r => !unwantedSeries r.series)).filter
          (snapKeep m)).filter (fun r => r.series == k)).map
        (fun r => (r.symbol, r.delivPer.getD 0)) := by
  unfold load_daily_data at hkg
  simp only at hkg
  obtain ⟨k', hk', heq⟩ := List.mem_map.mp hkg
  obtain ⟨hk, hg⟩ := Prod.mk.injEq .. ▸ heq
  subst hk
  exact ⟨((List.perm_insertionSort _ _).mem_iff).mp hk', hg.symm⟩

/-- claim C4: every group the Daily Snapshot Filter returns has a series
code outside the exclusion set, and every returned (symbol, delivery) pair
comes from an input row of that series whose delivery percentage is
defined and strictly greater than the supplied minimum. -/
theorem C4_snapshot_filter (rows : List SnapRow) (m : ℚ) (k : String)
    (g : List (String × ℚ)) (hkg : (k, g) ∈ (load_daily_data rows m).1) :
    unwantedSeries k = false ∧
    ∀ p ∈ g, ∃ r ∈ rows, r.series = k ∧ r.symbol = p.1 ∧
      r.delivPer = some p.2 ∧ m < p.2 := by
  obtain ⟨hk, hg⟩ := load_daily_mem rows m k g hkg
  constructor
  · obtain ⟨r2, hr2, hser⟩ := List.mem_map.mp (List.mem_dedup.mp hk)
    have h1 := (List.mem_filter.mp (List.mem_filter.mp hr2).1).2
    rw [Bool.not_eq_eq_eq_not, Bool.not_true] at h1
    rw [← hser]
    exact h1
  · intro p hp
    rw [hg] at hp
    obtain ⟨r, hrf, hex⟩ := List.mem_map.mp hp
    have hser : r.series = k := by
      have := (List.mem_filter.mp hrf).2
      exact beq_iff_eq.mp this
    have hr2 : r ∈ (rows.filter (fun r => !unwantedSeries r.series)).filter
        (snapKeep m) := (List.mem_filter.mp hrf).1
    obtain ⟨v, hv, hmv⟩ := (snapKeep_eq_true m r).mp (List.mem_filter.mp hr2).2
    have hrrows : r ∈ rows :=
      (List.mem_filter.mp (List.mem_filter.mp hr2).1).1
    refine ⟨r, hrrows, hser, ?_, ?_, ?_⟩
    · rw [← hex]
    · rw [← hex]
      simp only [hv, Option.getD_some]
    · have hp2 : p.2 = v := by rw [← hex]; simp only [hv, Option.getD_some]
      rw [hp2]
      exact hmv

/-- a snapshot table used by the C4 witness: mixed retained, excluded and
missing-percentage rows. -/
def snapRows : List SnapRow := [
  ⟨"EQ", "AAA", some 91, "02-Sep-2025"⟩,
  ⟨"GS", "GOV", some 99, "02-Sep-2025"⟩,
  ⟨"EQ", "BBB", some 95, "02-Sep-2025"⟩,
  ⟨"BE", "XXX", some 97, "02-Sep-2025"⟩,
  ⟨"W1", "WAR", some 98, "02-Sep-2025"⟩,
  ⟨"EQ", "CCC", none, "02-Sep-2025"⟩,
  ⟨"N1", "NNN", some 93, "02-Sep-2025"⟩]

/-- witness for C4 at the mixed snapshot table, minimum 90, group "EQ". -/
theorem C4_snapshot_filter_witness :
    unwantedSeries "EQ" = false ∧
    ∀ p ∈ [("AAA", (91 : ℚ)), ("BBB", 95)], ∃ r ∈ snapRows, r.series = "EQ" ∧
      r.symbol = p.1 ∧ r.delivPer = some p.2 ∧ (90 : ℚ) < p.2 :=
  C4_snapshot_filter snapRows 90 "EQ" [("AAA", 91), ("BBB", 95)] (by decide)

/-- the two-row snapshot table that exhibits the C3 counterexample: both
rows are retained and appear in input order, ascending in delivery
percentage. -/
def c3rows : List SnapRow := [
  ⟨"EQ", "AAA", some 91, "02-Sep-2025"⟩,
  ⟨"EQ", "BBB", some 95, "02-Sep-2025"⟩]

/-- counterexample to C3 as stated: the group the Daily Snapshot Filter
returns for "EQ" is [("AAA", 91), ("BBB", 95)] — the original input order,
which is not sorted by delivery percentage descending (the presentation
layer, not the filter, performs the descending sort). -/
theorem C3_counterexample :
    (load_daily_data c3rows 90).1 = [("EQ", [("AAA", (91 : ℚ)), ("BBB", 95)])]
    ∧ ¬ ((95 : ℚ) ≤ 91) := by
  exact ⟨by decide, by decide⟩

theorem map_extract_eq_filterMap (l : List SnapRow)
    (h : ∀ r ∈ l, r.delivPer ≠ none) :
    l.map (fun r => (r.symbol, r.delivPer.getD 0)) =
      l.filterMap (fun r => r.delivPer.map (fun v => (r.symbol, v))) := by
  induction l with
  | nil => rfl
  | cons a as ih =>
    cases ha : a.delivPer with
    | none => exact absurd ha (h a (List.mem_cons_self a as))
    | some v =>
      rw [List.map_cons, List.filterMap_cons]
      rw [ih (fun x hx => h x (List.mem_cons_of_mem _ hx))]
      simp [ha]

/-- claim C3 (amended): each group the Daily Snapshot Filter returns lists
its (symbol, delivery) pairs in the original input-row order — an
order-preserving subsequence of the input table's defined
(symbol, delivery) pairs; the filter itself performs no sort by delivery
percentage (the presentation layer sorts descending before display). -/
theorem C3_group_order (rows : List SnapRow) (m : ℚ) (k : String)
    (g : List (String × ℚ)) (hkg : (k, g) ∈ (load_daily_data rows m).1) :
    g.Sublist (rows.filterMap (fun r => r.delivPer.map (fun v => (r.symbol, v)))) := by
  obtain ⟨_, hg⟩ := load_daily_mem rows m k g hkg
  rw [hg]
  have hsub : (((rows.filter (fun r => !unwantedSeries r.series)).filter
      (snapKeep m)).filter (fun r => r.series == k)).Sublist rows :=
    (List.filter_sublist _).trans ((List.filter_sublist _).trans
      (List.filter_sublist _))
  rw [map_extract_eq_filterMap]
  · exact List.Sublist.filterMap _ hsub
  · intro r hr
    have hr2 : r ∈ (rows.filter (fun r => !unwantedSeries r.series)).filter
        (snapKeep m) := (List.mem_filter.mp hr).1
    obtain ⟨v, hv, _⟩ := (snapKeep_eq_true m r).mp (List.mem_filter.mp hr2).2
    rw [hv]
    exact Option.noConfusion

/-- witness for C3 (amended) at the two-row snapshot table: the "EQ" group
is a subsequence of the input pairs. -/
theorem C3_group_order_witness :
    ([("AAA", (91 : ℚ)), ("BBB", 95)]).Sublist
      (c3rows.filterMap (fun r => r.delivPer.map (fun v => (r.symbol, v)))) :=
  C3_group_order c3rows 90 "EQ" [("AAA", 91), ("BBB", 95)] (by decide)

theorem nanMean_eq_none (l : List (Option ℚ)) :
    nanMean l = none ↔ l.filterMap id = [] := by
  show (if (l.filterMap id).length = 0 then none
    else some ((l.filterMap id).sum / ((l.filterMap id).length : ℚ))) = none ↔ _
  by_cases hz : (l.filterMap id).length = 0
  · rw [if_pos hz]
    exact iff_of_true rfl (List.length_eq_zero.mp hz)
  · rw [if_neg hz]
    exact iff_of_false (Option.some_ne_none _)
      (fun hcon => hz (List.length_eq_zero.mpr hcon))

theorem nanMean_eq_some (l : List (Option ℚ)) (h : l.filterMap id ≠ []) :
    nanMean l = some ((l.filterMap id).sum / ((l.filterMap id).length : ℚ)) := by
  show (if (l.filterMap id).length = 0 then none
    else some ((l.filterMap id).sum / ((l.filterMap id).length : ℚ))) = _
  rw [if_neg (fun hz => h (List.length_eq_zero.mp hz))]

/-- claim C5 (amended): with a close-price column, `correlation` is
undefined exactly when no high-delivery row has a defined 5-day price
change (in particular when the high-delivery set is empty), and otherwise
is the mean of the defined changes; `success_rate` is undefined exactly
when the high-delivery set is empty, and otherwise is the fraction of
high-delivery rows with a positive change — so with a nonempty
high-delivery set whose changes are all undefined, `success_rate` is 0,
not undefined. -/
theorem C5_correlation_undefined (rows : List Row) (t : ℚ) (res : CorrResult)
    (h : analyze_price_correlation true rows t = some res) :
    (res.correlation = none ↔ (highChanges rows t).filterMap id = [])
    ∧ ((highChanges rows t).filterMap id ≠ [] →
        res.correlation = some ((((highChanges rows t).filterMap id).sum) /
          (((highChanges rows t).filterMap id).length : ℚ)))
    ∧ (res.successRate = none ↔ highChanges rows t = [])
    ∧ (highChanges rows t ≠ [] →
        res.successRate = some ((((highChanges rows t).filter (optGt 0)).length : ℚ) /
          ((highChanges rows t).length : ℚ))) := by
  have hres : res = ⟨nanMean (highChanges rows t),
      if (highChanges rows t).length = 0 then none
      else some ((((highChanges rows t).filter (optGt 0)).length : ℚ) /
        ((highChanges rows t).length : ℚ))⟩ := by
    unfold analyze_price_correlation at h
    simp only [if_true] at h
    exact (Option.some.inj h).symm
  subst hres
  refine ⟨nanMean_eq_none _, nanMean_eq_some _, ?_, ?_⟩
  · show (if (highChanges rows t).length = 0 then none else some _) = none ↔ _
    by_cases hz : (highChanges rows t).length = 0
    · rw [if_pos hz]
      exact iff_of_true rfl (List.length_eq_zero.mp hz)
    · rw [if_neg hz]
      exact iff_of_false (Option.some_ne_none _)
        (fun hcon => hz (List.length_eq_zero.mpr hcon))
  · intro hne
    show (if (highChanges rows t).length = 0 then none else some _) = _
    rw [if_neg (fun hz => hne (List.length_eq_zero.mp hz))]

/-- the Scenario-5 series: four high-delivery rows with defined close
prices, too short for any 5-day price change to be defined. -/
def c5rows : List Row := [
  { date := 0, pct := some 95, close := some 100 },
  { date := 1, pct := some 96, close := some 101 },
  { date := 2, pct := some 97, close := some 102 },
  { date := 3, pct := some 98, close := some 103 }]

/-- counterexample to C5 as stated: at the Scenario-5 series every
high-delivery row has an undefined 5-day price change and the high set is
nonempty, yet `success_rate` is defined (it is 0/4 = 0), while
`correlation` is indeed undefined — the claim demands both undefined. -/
theorem C5_counterexample :
    ((List.range 4).map (pctChange5At (c5rows.map Row.close))) =
      [none, none, none, none]
    ∧ (c5rows.map (highDel 90)) = [true, true, true, true]
    ∧ (analyze_price_correlation true c5rows 90).map CorrResult.correlation =
      some none
    ∧ (analyze_price_correlation true c5rows 90).map CorrResult.successRate ≠
      some none := by
  refine ⟨by decide, by decide, by decide, by decide⟩

/-- a one-row series whose single row is not high-delivery. -/
def lowRows : List Row := [{ date := 0, pct := some 10, close := some 100 }]

/-- witness for C5 (amended): at the one-row low-delivery series both
results are undefined, matching the empty high-delivery selection. -/
theorem C5_correlation_undefined_witness :
    (((⟨none, none⟩ : CorrResult)).correlation = none ↔
      (highChanges lowRows 90).filterMap id = [])
    ∧ ((highChanges lowRows 90).filterMap id ≠ [] →
        ((⟨none, none⟩ : CorrResult)).correlation =
          some ((((highChanges lowRows 90).filterMap id).sum) /
            (((highChanges lowRows 90).filterMap id).length : ℚ)))
    ∧ (((⟨none, none⟩ : CorrResult)).successRate = none ↔
        highChanges lowRows 90 = [])
    ∧ (highChanges lowRows 90 ≠ [] →
        ((⟨none, none⟩ : CorrResult)).successRate =
          some ((((highChanges lowRows 90).filter (optGt 0)).length : ℚ) /
            ((highChanges lowRows 90).length : ℚ))) :=
  C5_correlation_undefined lowRows 90 ⟨none, none⟩ (by decide)

theorem parseDates_length (l : List RawRow) (ds : List Int)
    (h : parseDates l = Except.ok ds) : ds.length = l.length := by
  induction l generalizing ds with
  | nil =>
    simp only [parseDates, Except.ok.injEq] at h
    rw [← h]
    rfl
  | cons r rs ih =>
    unfold parseDates at h
    cases hp : parseDate r.date with
    | none => rw [hp] at h; exact absurd h (by simp)
    | some d =>
      rw [hp] at h
      cases hr : parseDates rs with
      | error e => rw [hr] at h; exact absurd h (by simp)
      | ok ds2 =>
        rw [hr] at h
        simp only [Except.ok.injEq] at h
        rw [← h, List.length_cons, List.length_cons, ih ds2 hr]

theorem parsePcts_length (l : List RawRow) (qs : List ℚ)
    (h : parsePcts l = Except.ok qs) : qs.length = l.length := by
  induction l generalizing qs with
  | nil =>
    simp only [parsePcts, Except.ok.injEq] at h
    rw [← h]
    rfl
  | cons r rs ih =>
    unfold parsePcts at h
    cases hp : parseDecimal ((r.pct.trim).replace "," "") with
    | none => rw [hp] at h; exact absurd h (by simp)
    | some q =>
      rw [hp] at h
      cases hr : parsePcts rs with
      | error e => rw [hr] at h; exact absurd h (by simp)
      | ok qs2 =>
        rw [hr] at h
        simp only [Except.ok.injEq] at h
        rw [← h, List.length_cons, List.length_cons, ih qs2 hr]

/-- claim C6 (amended): the historical-data loader returns the empty series
exactly on empty input — an empty parse result is returned as an empty
frame, not reported through any empty-input error (no such error exists in
the loader). -/
theorem C6_empty_series (raws : List RawRow) :
    load_historical_data raws = Except.ok [] ↔ raws = [] := by
  constructor
  · intro h
    cases raws with
    | nil => rfl
    | cons r rs =>
      exfalso
      unfold load_historical_data at h
      cases hd : parseDates (r :: rs) with
      | error e => rw [hd] at h; simp at h
      | ok dates =>
        rw [hd] at h
        cases hp : parsePcts (r :: rs) with
        | error e => rw [hp] at h; simp at h
        | ok pcts =>
          rw [hp] at h
          simp only [Except.ok.injEq] at h
          have hlen := congrArg List.length h
          rw [List.length_insertionSort, List.length_map, List.length_zip,
            List.length_zip, List.length_map,
            parseDates_length _ _ hd, parsePcts_length _ _ hp] at hlen
          simp at hlen
  · rintro rfl
    rfl

/-- counterexample to C6 as stated: on an input with zero rows the loader
returns the empty series successfully; it does not fail (there is no
`EmptyInputError` in the code). -/
theorem C6_counterexample : load_historical_data [] = Except.ok [] := rfl

end StockTool
